import Mathlib

/-!
Verification of the `z_pos_bot_assistent` classification / entity-extraction /
ingestion core, shallowly embedded from `app/rules_engine.py`,
`app/entities_engine.py` and `app/storage.py`.

Machine reals (`weight`, `confidence`) are embedded as `Rat`; Python's `re`
engine is external to the repository and is embedded as follows: for the
classification rules a pattern is either a well-formed literal pattern
(`re.search` = substring containment) or a malformed one (`re.error`); for the
entity extractor a compiled pattern is an oracle `finditer` function, or
`none` for a pattern whose compilation raises `re.error`.
-/

namespace PosBot

/-- A rule pattern as it appears in `include_any` / `exclude_any` of
`config/rules.yaml`.  `lit s` is a well-formed pattern (modelled as a literal:
it matches texts containing `s`); `bad s` is a pattern string whose
compilation raises `re.error`. -/
inductive Pattern where
  | lit (s : String)
  | bad (s : String)
deriving DecidableEq

/-- The pattern's source text (`str(pat)` in Python). -/
def Pattern.toStr : Pattern → String
  | .lit s => s
  | .bad s => s

/-- `needle` occurs as a contiguous sublist of `hay`. -/
def listContains (needle : List Char) : List Char → Bool
  | [] => needle.isPrefixOf []
  | c :: t => needle.isPrefixOf (c :: t) || listContains needle t

/-- `re.search(pat, text)`: `.error` models the `re.error` raised for a
malformed pattern, `.ok b` says whether the pattern occurs in `text`. -/
def reSearch (p : Pattern) (text : String) : Except Unit Bool :=
  match p with
  | .lit s => .ok (listContains s.toList text.toList)
  | .bad _ => .error ()

/-- A classification rule (`problem_rules` entry), `app/rules_engine.py`. -/
structure Rule where
  id : String
  enabled : Bool
  code : String
  priority : Int
  weight : Rat
  include_any : List Pattern
  exclude_any : List Pattern
  hint_symptom : String
deriving DecidableEq

/-- `MatchResult` dataclass of `app/rules_engine.py` (lines 27-34). -/
structure MatchResult where
  code : String
  rule_id : String
  priority : Int
  weight : Rat
  hint_symptom : String
  matched_include : String
deriving DecidableEq

/-- The include-loop of `classify_text` (`rules_engine.py` lines 145-157):
the first matching pattern wins and is recorded; a malformed pattern sets
`matched_pat = None` and breaks out of the loop. -/
def matchInclude (text : String) : List Pattern → Option Pattern
  | [] => none
  | p :: ps =>
    match reSearch p text with
    | .error _ => none
    | .ok true => some p
    | .ok false => matchInclude text ps

/-- The exclude-loop of `classify_text` (lines 159-167): any matching pattern
excludes the rule; a malformed exclude pattern is skipped (`continue`). -/
def anyExclude (text : String) : List Pattern → Bool
  | [] => false
  | p :: ps =>
    match reSearch p text with
    | .error _ => anyExclude text ps
    | .ok true => true
    | .ok false => anyExclude text ps

/-- The order realised by `sorted(key=(priority, weight), reverse=True)`:
`ruleGE a b` holds when `a` may come no later than `b`. -/
def ruleGE (a b : Rule) : Prop :=
  b.priority < a.priority ∨ (a.priority = b.priority ∧ b.weight ≤ a.weight)

instance : DecidableRel ruleGE := fun a b => by
  unfold ruleGE; exact inferInstance

/-- `_sorted_rules` (lines 118-124): keep enabled rules, sort by priority
descending then weight descending; Python's `sorted` is stable, and
`List.insertionSort` is the stable sort realising the same order. -/
def _sorted_rules (rules : List Rule) : List Rule :=
  List.insertionSort ruleGE (rules.filter (fun r => r.enabled))

/-- The `MatchResult` built at `rules_engine.py` lines 172-179. -/
def mkMatchResult (text : String) (r : Rule) : MatchResult :=
  { code := r.code, rule_id := r.id, priority := r.priority, weight := r.weight,
    hint_symptom := r.hint_symptom,
    matched_include := ((matchInclude text r.include_any).map Pattern.toStr).getD "" }

/-- The candidate loop of `classify_text` (lines 141-181). -/
def evalCandidates (text : String) : List Rule → Option MatchResult
  | [] => none
  | r :: rest =>
    match matchInclude text r.include_any with
    | none => evalCandidates text rest
    | some _ =>
      if anyExclude text r.exclude_any then evalCandidates text rest
      else some (mkMatchResult text r)

/-- The loaded `rules.yaml` data, restricted to the fields `classify_text`
reads. -/
structure RulesData where
  ruleset_version : String
  problem_rules : List Rule

/-- `classify_text` (`rules_engine.py` lines 127-181). -/
def classify_text (text : String) (data : RulesData) : Option MatchResult :=
  if text = "" then none
  else evalCandidates text (_sorted_rules data.problem_rules)

/-- A candidate survives both filters: some include pattern matches and no
exclude pattern matches. -/
def ruleSurvives (text : String) (r : Rule) : Bool :=
  (matchInclude text r.include_any).isSome && !(anyExclude text r.exclude_any)

lemma evalCandidates_cons (text : String) (r : Rule) (rest : List Rule) :
    evalCandidates text (r :: rest) =
      match matchInclude text r.include_any with
      | none => evalCandidates text rest
      | some _ =>
        if anyExclude text r.exclude_any then evalCandidates text rest
        else some (mkMatchResult text r) := rfl

lemma evalCandidates_cons_survives {text : String} {r : Rule} (rest : List Rule)
    (h : ruleSurvives text r = true) :
    evalCandidates text (r :: rest) = some (mkMatchResult text r) := by
  unfold ruleSurvives at h
  rcases Bool.and_eq_true_iff.mp h with ⟨h1, h2⟩
  rcases Option.isSome_iff_exists.mp h1 with ⟨p, hp⟩
  rw [evalCandidates_cons, hp]
  simp only [Bool.not_eq_true'] at h2
  rw [h2]
  simp

lemma evalCandidates_cons_skip {text : String} {r : Rule} (rest : List Rule)
    (h : ruleSurvives text r = false) :
    evalCandidates text (r :: rest) = evalCandidates text rest := by
  unfold ruleSurvives at h
  rw [evalCandidates_cons]
  cases hm : matchInclude text r.include_any with
  | none => rfl
  | some p =>
    rw [hm] at h
    simp only [Option.isSome_some, Bool.true_and, Bool.not_eq_false'] at h
    rw [h]
    simp

lemma evalCandidates_eq_find (text : String) (l : List Rule) :
    evalCandidates text l = (l.find? (ruleSurvives text)).map (mkMatchResult text) := by
  induction l with
  | nil => rfl
  | cons r rest ih =>
    cases hs : ruleSurvives text r with
    | true =>
      rw [evalCandidates_cons_survives rest hs, List.find?_cons_of_pos _ hs]
      rfl
    | false =>
      rw [evalCandidates_cons_skip rest hs, List.find?_cons_of_neg _ (by simp [hs]), ih]

/-- C1: `classify_text` returns `none` on empty text; otherwise it returns the
first candidate, in the sorted order over enabled rules, that survives the
include/exclude filters (first-win: captured by `List.find?`), and `none`
when no candidate survives. -/
theorem classify_text_first_win (data : RulesData) (text : String) :
    (text = "" → classify_text text data = none) ∧
    (text ≠ "" → classify_text text data =
      ((_sorted_rules data.problem_rules).find? (ruleSurvives text)).map
        (mkMatchResult text)) := by
  constructor
  · intro h; simp [classify_text, h]
  · intro h
    unfold classify_text
    rw [if_neg h]
    exact evalCandidates_eq_find text _

/-- C1 witness at concrete inputs, hypotheses discharged. -/
theorem classify_text_first_win_witness :
    classify_text ""
        ⟨"v1", [⟨"r1", true, "C1", 5, 1/2, [.lit "abc"], [], "h"⟩]⟩ = none ∧
    classify_text "abc"
        ⟨"v1", [⟨"r1", true, "C1", 5, 1/2, [.lit "abc"], [], "h"⟩]⟩ =
      ((_sorted_rules [⟨"r1", true, "C1", 5, 1/2, [.lit "abc"], [], "h"⟩]).find?
          (ruleSurvives "abc")).map (mkMatchResult "abc") :=
  ⟨(classify_text_first_win ⟨"v1", [⟨"r1", true, "C1", 5, 1/2, [.lit "abc"], [], "h"⟩]⟩ "").1 rfl,
   (classify_text_first_win ⟨"v1", [⟨"r1", true, "C1", 5, 1/2, [.lit "abc"], [], "h"⟩]⟩ "abc").2
     (by decide)⟩

lemma sorted_rules_pair (r1 r2 : Rule) (he1 : r1.enabled = true) (he2 : r2.enabled = true) :
    _sorted_rules [r1, r2] = if ruleGE r1 r2 then [r1, r2] else [r2, r1] := by
  unfold _sorted_rules
  simp [List.filter_cons, he1, he2, List.insertionSort, List.orderedInsert]

/-- C2: `classify_text` considers only enabled rules in priority-descending,
then weight-descending order, with ties broken by declaration order: among two
enabled matching rules, priority 10 beats priority 5 in either declaration
order, and with equal priority and weight the rule declared first wins. -/
theorem classify_text_priority_order (r1 r2 : Rule) (text ver : String)
    (he1 : r1.enabled = true) (he2 : r2.enabled = true)
    (hm1 : ruleSurvives text r1 = true) (_hm2 : ruleSurvives text r2 = true)
    (hne : text ≠ "") :
    (∀ (data : RulesData) (res : MatchResult), classify_text text data = some res →
       ∃ r, r ∈ data.problem_rules ∧ r.enabled = true ∧ res = mkMatchResult text r) ∧
    ((r1.priority = 10 ∧ r2.priority = 5) →
       classify_text text ⟨ver, [r1, r2]⟩ = some (mkMatchResult text r1) ∧
       classify_text text ⟨ver, [r2, r1]⟩ = some (mkMatchResult text r1)) ∧
    ((r1.priority = r2.priority ∧ r1.weight = r2.weight) →
       classify_text text ⟨ver, [r1, r2]⟩ = some (mkMatchResult text r1)) := by
  have h12 := sorted_rules_pair r1 r2 he1 he2
  have h21 := sorted_rules_pair r2 r1 he2 he1
  refine ⟨?_, ?_, ?_⟩
  · intro data res hres
    unfold classify_text at hres
    split at hres
    · simp at hres
    · rw [evalCandidates_eq_find] at hres
      rcases Option.map_eq_some'.mp hres with ⟨r, hfind, rfl⟩
      have hmem : r ∈ _sorted_rules data.problem_rules :=
        List.mem_of_find?_eq_some hfind
      unfold _sorted_rules at hmem
      rw [List.mem_insertionSort] at hmem
      rcases List.mem_filter.mp hmem with ⟨hmem', hen⟩
      exact ⟨r, hmem', hen, rfl⟩
  · rintro ⟨hp1, hp2⟩
    have hge : ruleGE r1 r2 := Or.inl (by rw [hp1, hp2]; norm_num)
    have hnge : ¬ ruleGE r2 r1 := by
      unfold ruleGE
      rw [hp1, hp2]
      rintro (h | ⟨h, -⟩) <;> norm_num at h
    constructor
    · unfold classify_text
      rw [if_neg hne]
      show evalCandidates text (_sorted_rules [r1, r2]) = _
      rw [h12, if_pos hge]
      exact evalCandidates_cons_survives _ hm1
    · unfold classify_text
      rw [if_neg hne]
      show evalCandidates text (_sorted_rules [r2, r1]) = _
      rw [h21, if_neg hnge]
      exact evalCandidates_cons_survives _ hm1
  · rintro ⟨hp, hw⟩
    have hge : ruleGE r1 r2 := Or.inr ⟨hp, le_of_eq hw.symm⟩
    unfold classify_text
    rw [if_neg hne]
    show evalCandidates text (_sorted_rules [r1, r2]) = _
    rw [h12, if_pos hge]
    exact evalCandidates_cons_survives _ hm1

/-- C2 witness: the returned rule is an enabled declared rule, a priority-10
rule beats a priority-5 rule in both declaration orders, and among two
equal-(priority, weight) rules the earlier one wins. -/
theorem classify_text_priority_order_witness :
    (∃ r, r ∈ [⟨"a", true, "X", 10, 1, [.lit "x"], [], "h"⟩,
               ⟨"b", true, "Y", 5, 1, [.lit "x"], [], "h"⟩] ∧ r.enabled = true ∧
       mkMatchResult "x" ⟨"a", true, "X", 10, 1, [.lit "x"], [], "h"⟩ =
         mkMatchResult "x" r) ∧
    (classify_text "x" ⟨"v", [⟨"a", true, "X", 10, 1, [.lit "x"], [], "h"⟩,
                              ⟨"b", true, "Y", 5, 1, [.lit "x"], [], "h"⟩]⟩ =
        some (mkMatchResult "x" ⟨"a", true, "X", 10, 1, [.lit "x"], [], "h"⟩) ∧
      classify_text "x" ⟨"v", [⟨"b", true, "Y", 5, 1, [.lit "x"], [], "h"⟩,
                               ⟨"a", true, "X", 10, 1, [.lit "x"], [], "h"⟩]⟩ =
        some (mkMatchResult "x" ⟨"a", true, "X", 10, 1, [.lit "x"], [], "h"⟩)) ∧
    classify_text "x" ⟨"v", [⟨"c", true, "X", 7, 1, [.lit "x"], [], "h"⟩,
                             ⟨"d", true, "Y", 7, 1, [.lit "x"], [], "h"⟩]⟩ =
      some (mkMatchResult "x" ⟨"c", true, "X", 7, 1, [.lit "x"], [], "h"⟩) :=
  ⟨(classify_text_priority_order ⟨"a", true, "X", 10, 1, [.lit "x"], [], "h"⟩
      ⟨"b", true, "Y", 5, 1, [.lit "x"], [], "h"⟩ "x" "v" rfl rfl (by decide) (by decide)
      (by decide)).1
      ⟨"v", [⟨"a", true, "X", 10, 1, [.lit "x"], [], "h"⟩,
             ⟨"b", true, "Y", 5, 1, [.lit "x"], [], "h"⟩]⟩
      (mkMatchResult "x" ⟨"a", true, "X", 10, 1, [.lit "x"], [], "h"⟩) (by decide),
   (classify_text_priority_order ⟨"a", true, "X", 10, 1, [.lit "x"], [], "h"⟩
      ⟨"b", true, "Y", 5, 1, [.lit "x"], [], "h"⟩ "x" "v" rfl rfl (by decide) (by decide)
      (by decide)).2.1 ⟨rfl, rfl⟩,
   (classify_text_priority_order ⟨"c", true, "X", 7, 1, [.lit "x"], [], "h"⟩
      ⟨"d", true, "Y", 7, 1, [.lit "x"], [], "h"⟩ "x" "v" rfl rfl (by decide) (by decide)
      (by decide)).2.2 ⟨rfl, rfl⟩⟩

/-- C3: a malformed include pattern stops include-evaluation of that rule at
once with no match (later includes are not tried, the rule is skipped); a
malformed exclude pattern is skipped and does not exclude the rule; in neither
case does the malformed pattern abort evaluation of the remaining candidates. -/
theorem malformed_pattern_local (text s : String) (ps es : List Pattern)
    (r : Rule) (rest : List Rule) :
    matchInclude text (Pattern.bad s :: ps) = none ∧
    anyExclude text (Pattern.bad s :: ps) = anyExclude text ps ∧
    (r.include_any = Pattern.bad s :: ps →
       evalCandidates text (r :: rest) = evalCandidates text rest) ∧
    (r.exclude_any = Pattern.bad s :: es → (matchInclude text r.include_any).isSome →
       anyExclude text es = false →
       evalCandidates text (r :: rest) = some (mkMatchResult text r)) := by
  refine ⟨rfl, rfl, ?_, ?_⟩
  · intro hinc
    apply evalCandidates_cons_skip
    unfold ruleSurvives
    rw [hinc]
    have hm : matchInclude text (Pattern.bad s :: ps) = none := rfl
    rw [hm]
    rfl
  · intro hexc hsome hes
    apply evalCandidates_cons_survives
    unfold ruleSurvives
    rw [hexc]
    have he : anyExclude text (Pattern.bad s :: es) = anyExclude text es := rfl
    rw [he, hes]
    simp [hsome]

/-- C3 witness: concrete rules with malformed include / exclude patterns. -/
theorem malformed_pattern_local_witness :
    evalCandidates "abc" [⟨"r1", true, "X", 9, 1/2, [.bad "(", .lit "abc"], [], "h"⟩,
                          ⟨"r2", true, "Y", 1, 1/2, [.lit "abc"], [], "h"⟩] =
      evalCandidates "abc" [⟨"r2", true, "Y", 1, 1/2, [.lit "abc"], [], "h"⟩] ∧
    evalCandidates "abc" [⟨"r3", true, "Z", 9, 1/2, [.lit "abc"], [.bad "(", .lit "zz"], "h"⟩] =
      some (mkMatchResult "abc" ⟨"r3", true, "Z", 9, 1/2, [.lit "abc"], [.bad "(", .lit "zz"], "h"⟩) :=
  ⟨(malformed_pattern_local "abc" "(" [.lit "abc"] []
      ⟨"r1", true, "X", 9, 1/2, [.bad "(", .lit "abc"], [], "h"⟩
      [⟨"r2", true, "Y", 1, 1/2, [.lit "abc"], [], "h"⟩]).2.2.1 rfl,
   (malformed_pattern_local "abc" "(" [] [.lit "zz"]
      ⟨"r3", true, "Z", 9, 1/2, [.lit "abc"], [.bad "(", .lit "zz"], "h"⟩ []).2.2.2 rfl
      (by decide) (by decide)⟩

/-! ### Entity extraction (`app/entities_engine.py`) -/

/-- Python `str.strip()`: drop leading and trailing whitespace, embedded at the
character level. -/
def pyStrip (s : String) : String :=
  String.mk (((s.toList.dropWhile Char.isWhitespace).reverse.dropWhile
      Char.isWhitespace).reverse)

/-- An entity `finditer` match: the whole match (`group(0)`) and the first
capture group when the pattern defines one (`group(1)`). -/
structure REMatch where
  group0 : String
  group1 : Option String
deriving DecidableEq

/-- One `patterns.<type>` entry of `config/entities.yaml`.  `compiled` is the
`finditer` behaviour of the compiled regex over a text, or `none` for a regex
string whose compilation raises `re.error`. -/
structure EPattern where
  name : String
  confidence : Rat
  compiled : Option (String → List REMatch)

/-- The loaded `entities.yaml` data: extractor version and the per-type
pattern lists, in declaration order. -/
structure EntityData where
  extractor : String
  patterns : List (String × List EPattern)

/-- `EntityMatch` dataclass of `app/entities_engine.py` (lines 17-23). -/
structure EntityMatch where
  entity_type : String
  entity_value : String
  entity_raw : String
  confidence : Rat
  extractor : String
deriving DecidableEq

/-- `_normalize` (`entities_engine.py` lines 69-83): strip, then digits-only
for `azs` / `workplace` / `sd_ticket`, uppercase for `terminal`, and the
stripped value as-is for `sd_dt` and every other type. -/
def _normalize (entity_type : String) (value : String) : String :=
  let v := pyStrip value
  if entity_type = "azs" ∨ entity_type = "workplace" ∨ entity_type = "sd_ticket" then
    String.mk (v.toList.filter (fun c => c.isDigit))
  else if entity_type = "terminal" then v.toUpper
  else if entity_type = "sd_dt" then v
  else v

/-- Word characters for the `\b` boundaries in
`re.findall(r"\b\d{1,2}\b", ...)`: ASCII alphanumerics, underscore, and the
Cyrillic block appearing in the data. -/
def isWordChar (c : Char) : Bool :=
  c.isAlphanum || c = '_' || (0x400 ≤ c.toNat && c.toNat ≤ 0x4FF)

/-- The maximal runs of word characters of a character list, in order. -/
def wordRuns (cs : List Char) : List (List Char) :=
  let step := fun (c : Char) (acc : List (List Char) × List Char) =>
    if isWordChar c then (acc.1, c :: acc.2)
    else (if acc.2 = [] then acc.1 else acc.2 :: acc.1, ([] : List Char))
  let r := cs.foldr step ([], [])
  if r.2 = [] then r.1 else r.2 :: r.1

/-- `re.findall(r"\b\d{1,2}\b", s)`: the maximal word-character runs of `s`
that consist of exactly one or two digits. -/
def shortNumTokens (s : String) : List String :=
  ((wordRuns s.toList).filter
      (fun r => r.all (fun c => c.isDigit) && decide (r.length ≤ 2) &&
        decide (1 ≤ r.length))).map
    (fun r => String.mk r)

/-- Processing of one `finditer` match inside `extract_entities`
(`entities_engine.py` lines 106-141): `val` is group 1 when present, else the
whole match; a `workplace` capture containing one-or-two-digit tokens emits
one match per token, each keeping the whole match as `entity_raw`, and skips
the generic path (`continue`); otherwise the generic path emits one match
with the per-type normalized value, dropped when the normalization is empty. -/
def processMatch (ver etype : String) (p : EPattern) (m : REMatch) : List EntityMatch :=
  let raw := m.group0
  let val := m.group1.getD raw
  if etype = "workplace" ∧ shortNumTokens val ≠ [] then
    (shortNumTokens val).filterMap (fun n =>
      let norm := _normalize etype n
      if norm = "" then none
      else some ⟨etype, norm, raw, p.confidence, ver ++ ":" ++ p.name⟩)
  else
    let norm := _normalize etype val
    if norm = "" then []
    else [⟨etype, norm, raw, p.confidence, ver ++ ":" ++ p.name⟩]

/-- `extract_entities` (`entities_engine.py` lines 86-147), over an explicit
`data` argument (the Python default argument loads `config/entities.yaml`).
A pattern whose compilation fails contributes nothing (`except re.error`). -/
def extract_entities (text : String) (data : EntityData) : List EntityMatch :=
  if text = "" then []
  else
    (data.patterns.map (fun tp =>
      (tp.2.map (fun p =>
        match p.compiled with
        | none => []
        | some fi => ((fi text).map (processMatch data.extractor tp.1 p)).flatten)).flatten)).flatten

/-- Fuelled scanner used to model the standard entity regexes: finds each
occurrence of `key`, skips spaces after it, and captures the longest following
run of `capClass` characters; yields the whole match and the capture, then
continues after the capture (non-overlapping matches, left to right). -/
def findKeyCap (key : List Char) (capClass : Char → Bool) : Nat → List Char → List REMatch
  | 0, _ => []
  | _, [] => []
  | fuel + 1, c :: rest =>
    if key.isPrefixOf (c :: rest) then
      let after := (c :: rest).drop key.length
      let sp := after.takeWhile (fun ch => ch = ' ')
      let r1 := after.dropWhile (fun ch => ch = ' ')
      let cap := r1.takeWhile capClass
      let r2 := r1.dropWhile capClass
      if cap = [] then findKeyCap key capClass fuel rest
      else ⟨String.mk (key ++ sp ++ cap), some (String.mk cap)⟩ ::
        findKeyCap key capClass fuel r2
    else findKeyCap key capClass fuel rest

/-- Modelled from the spec: the standard "azs" pattern of
`config/entities.yaml`, which is not under `src/`.  Per §6 and the §8 example,
it matches `АЗС` followed by a run of digits, capturing the digits. -/
def azsFind (text : String) : List REMatch :=
  findKeyCap "АЗС".toList (fun c => c.isDigit) (text.toList.length + 1) text.toList

/-- Modelled from the spec: the standard "workplace" pattern of
`config/entities.yaml`, which is not under `src/`.  Per §4.3 and the §8
example, it matches `РМ` followed by a comma/space-separated list of numbers,
capturing the list. -/
def wpFind (text : String) : List REMatch :=
  findKeyCap "РМ".toList (fun c => c.isDigit || c = ',' || c = ' ')
    (text.toList.length + 1) text.toList

/-- Modelled from the spec: the standard pattern set (`config/entities.yaml`
is not under `src/`): an "azs" pattern and a "workplace" pattern, in this
declaration order. -/
def stdEntityData : EntityData :=
  ⟨"regex:v1",
   [("azs", [⟨"azs_num", 9/10, some azsFind⟩]),
    ("workplace", [⟨"rm_list", 9/10, some wpFind⟩])]⟩

lemma digit_not_ws {c : Char} (h : c.isDigit = true) : c.isWhitespace = false := by
  cases hc : c.isWhitespace
  · rfl
  · exfalso
    simp only [Char.isWhitespace, Bool.or_eq_true, decide_eq_true_eq] at hc
    rcases hc with ((rfl | rfl) | rfl) | rfl <;> exact absurd h (by decide)

lemma dropWhile_ws_of_digits (l : List Char) (h : l.all (fun c => c.isDigit) = true) :
    l.dropWhile Char.isWhitespace = l := by
  cases l with
  | nil => rfl
  | cons c t =>
    simp only [List.all_cons, Bool.and_eq_true] at h
    rw [List.dropWhile_cons]
    simp [digit_not_ws h.1]

lemma pyStrip_digits (l : List Char) (h : l.all (fun c => c.isDigit) = true) :
    pyStrip (String.mk l) = String.mk l := by
  unfold pyStrip
  have h1 : (String.mk l).toList = l := rfl
  rw [h1, dropWhile_ws_of_digits l h]
  have h2 : l.reverse.all (fun c => c.isDigit) = true := by
    rw [List.all_reverse]; exact h
  rw [dropWhile_ws_of_digits l.reverse h2, List.reverse_reverse]

lemma mk_ne_empty {r : List Char} (h : r ≠ []) : String.mk r ≠ "" := by
  intro he
  apply h
  have hd : (String.mk r).data = ("" : String).data := by rw [he]
  simpa using hd

lemma normalize_digit_token (r : List Char) (hd : r.all (fun c => c.isDigit) = true) :
    _normalize "workplace" (String.mk r) = String.mk r := by
  unfold _normalize
  rw [if_pos (Or.inr (Or.inl rfl))]
  rw [pyStrip_digits r hd]
  have h1 : (String.mk r).toList = r := rfl
  rw [h1, List.filter_eq_self.mpr (fun a ha => List.all_eq_true.mp hd a ha)]

lemma mem_shortNumTokens {n s : String} (h : n ∈ shortNumTokens s) :
    ∃ r : List Char, n = String.mk r ∧ r.all (fun c => c.isDigit) = true ∧ r ≠ [] := by
  unfold shortNumTokens at h
  rcases List.mem_map.mp h with ⟨r, hr, rfl⟩
  rcases List.mem_filter.mp hr with ⟨-, hp⟩
  simp only [Bool.and_eq_true, decide_eq_true_eq] at hp
  refine ⟨r, rfl, hp.1.1, ?_⟩
  intro hrnil
  subst hrnil
  simp at hp

lemma filterMap_tokens (ver : String) (p : EPattern) (raw : String) (l : List String)
    (hl : ∀ n ∈ l, _normalize "workplace" n = n ∧ n ≠ "") :
    (l.filterMap (fun n =>
      let norm := _normalize "workplace" n
      if norm = "" then none
      else some (⟨"workplace", norm, raw, p.confidence, ver ++ ":" ++ p.name⟩ : EntityMatch))) =
    l.map (fun n =>
      (⟨"workplace", n, raw, p.confidence, ver ++ ":" ++ p.name⟩ : EntityMatch)) := by
  induction l with
  | nil => rfl
  | cons a t ih =>
    have ha := hl a (List.mem_cons_self a t)
    rw [List.filterMap_cons, List.map_cons]
    simp only [ha.1, if_neg ha.2]
    rw [ih (fun n hn => hl n (List.mem_cons_of_mem a hn))]

/-- C4: a `workplace` match whose capture contains one-or-two-digit tokens is
split: one `EntityMatch` per token, each with the whole match as `entity_raw`,
instead of one match for the capture; and on the spec's example text
the standard patterns yield one "azs" entity `0123` and three "workplace"
entities `1`, `2`, `3`. -/
theorem workplace_split_per_token (ver : String) (p : EPattern) (m : REMatch)
    (h : shortNumTokens (m.group1.getD m.group0) ≠ []) :
    processMatch ver "workplace" p m =
      (shortNumTokens (m.group1.getD m.group0)).map
        (fun n => ⟨"workplace", n, m.group0, p.confidence, ver ++ ":" ++ p.name⟩) ∧
    (extract_entities "АЗС 0123, РМ 1,2,3" stdEntityData).map
        (fun e => (e.entity_type, e.entity_value, e.entity_raw)) =
      [("azs", "0123", "АЗС 0123"),
       ("workplace", "1", "РМ 1,2,3"),
       ("workplace", "2", "РМ 1,2,3"),
       ("workplace", "3", "РМ 1,2,3")] := by
  constructor
  · unfold processMatch
    rw [if_pos ⟨rfl, h⟩]
    apply filterMap_tokens
    intro n hn
    rcases mem_shortNumTokens hn with ⟨r, rfl, hall, hne⟩
    exact ⟨normalize_digit_token r hall, mk_ne_empty hne⟩
  · decide

/-- C4 witness: the general split applied to the workplace capture `1,2,3`. -/
theorem workplace_split_per_token_witness :
    processMatch "regex:v1" "workplace" ⟨"rm_list", 9/10, some wpFind⟩
        ⟨"РМ 1,2,3", some "1,2,3"⟩ =
      (shortNumTokens "1,2,3").map
        (fun n => ⟨"workplace", n, "РМ 1,2,3", 9/10, "regex:v1" ++ ":" ++ "rm_list"⟩) :=
  (workplace_split_per_token "regex:v1" ⟨"rm_list", 9/10, some wpFind⟩
    ⟨"РМ 1,2,3", some "1,2,3"⟩ (by decide)).1

/-- C10: a `workplace` capture with no one-or-two-digit token is not split and
not discarded: it falls through to the generic path and yields one entity
whose value is the digits of the (stripped) capture; in particular a `123`
capture yields the single workplace entity `123`. -/
theorem workplace_generic_fallback (ver : String) (p : EPattern) (m : REMatch)
    (h : shortNumTokens (m.group1.getD m.group0) = [])
    (hne : String.mk ((pyStrip (m.group1.getD m.group0)).toList.filter
      (fun c => c.isDigit)) ≠ "") :
    processMatch ver "workplace" p m =
      [⟨"workplace",
        String.mk ((pyStrip (m.group1.getD m.group0)).toList.filter (fun c => c.isDigit)),
        m.group0, p.confidence, ver ++ ":" ++ p.name⟩] ∧
    (extract_entities "РМ 123" stdEntityData).map
        (fun e => (e.entity_type, e.entity_value)) = [("workplace", "123")] := by
  constructor
  · have hnorm : _normalize "workplace" (m.group1.getD m.group0) =
        String.mk ((pyStrip (m.group1.getD m.group0)).toList.filter (fun c => c.isDigit)) := by
      unfold _normalize
      rw [if_pos (Or.inr (Or.inl rfl))]
    unfold processMatch
    rw [if_neg (by rintro ⟨-, hx⟩; exact hx h)]
    simp only [hnorm, if_neg hne]
  · decide

/-- C10 witness: the fallback applied to the concrete `123` capture. -/
theorem workplace_generic_fallback_witness :
    processMatch "regex:v1" "workplace" ⟨"rm_list", 9/10, some wpFind⟩
        ⟨"РМ 123", some "123"⟩ =
      [⟨"workplace", String.mk ((pyStrip "123").toList.filter (fun c => c.isDigit)),
        "РМ 123", 9/10, "regex:v1" ++ ":" ++ "rm_list"⟩] :=
  (workplace_generic_fallback "regex:v1" ⟨"rm_list", 9/10, some wpFind⟩
    ⟨"РМ 123", some "123"⟩ (by decide) (by decide)).1

lemma processMatch_value_ne (ver etype : String) (p : EPattern) (m : REMatch) :
    ∀ e ∈ processMatch ver etype p m, e.entity_value ≠ "" := by
  intro e he
  unfold processMatch at he
  by_cases hc : etype = "workplace" ∧ shortNumTokens (m.group1.getD m.group0) ≠ []
  · rw [if_pos hc] at he
    rcases List.mem_filterMap.mp he with ⟨n, hn, hsome⟩
    by_cases hn0 : _normalize etype n = ""
    · simp [hn0] at hsome
    · simp only [if_neg hn0, Option.some.injEq] at hsome
      rw [← hsome]
      exact hn0
  · rw [if_neg hc] at he
    by_cases hn0 : _normalize etype (m.group1.getD m.group0) = ""
    · simp [hn0] at he
    · simp only [if_neg hn0, List.mem_singleton] at he
      rw [he]
      exact hn0

lemma extract_entities_value_ne (text : String) (data : EntityData) :
    ∀ e ∈ extract_entities text data, e.entity_value ≠ "" := by
  intro e he
  unfold extract_entities at he
  split at he
  · simp at he
  · rcases List.mem_flatten.mp he with ⟨l1, hl1, he1⟩
    rcases List.mem_map.mp hl1 with ⟨tp, htp, rfl⟩
    rcases List.mem_flatten.mp he1 with ⟨l2, hl2, he2⟩
    rcases List.mem_map.mp hl2 with ⟨p, hp, rfl⟩
    cases hcomp : p.compiled with
    | none => rw [hcomp] at he2; simp at he2
    | some fi =>
      rw [hcomp] at he2
      rcases List.mem_flatten.mp he2 with ⟨l3, hl3, he3⟩
      rcases List.mem_map.mp hl3 with ⟨mm, hmm, rfl⟩
      exact processMatch_value_ne _ _ _ _ e he3

/-- C5 (amended): normalization strips every value first; `azs` / `workplace` /
`sd_ticket` then keep digits only, `terminal` is uppercased, `sd_dt` and every
other type are the stripped value as-is; and no `EntityMatch` with an empty
`entity_value` is ever emitted. -/
theorem normalize_per_type (v text : String) (data : EntityData) :
    (_normalize "azs" v = String.mk ((pyStrip v).toList.filter (fun c => c.isDigit)) ∧
     _normalize "workplace" v = String.mk ((pyStrip v).toList.filter (fun c => c.isDigit)) ∧
     _normalize "sd_ticket" v = String.mk ((pyStrip v).toList.filter (fun c => c.isDigit)) ∧
     _normalize "terminal" v = (pyStrip v).toUpper ∧
     _normalize "sd_dt" v = pyStrip v) ∧
    (∀ t : String, t ≠ "azs" → t ≠ "workplace" → t ≠ "sd_ticket" → t ≠ "terminal" →
       t ≠ "sd_dt" → _normalize t v = pyStrip v) ∧
    (∀ e ∈ extract_entities text data, e.entity_value ≠ "") := by
  refine ⟨⟨?_, ?_, ?_, ?_, ?_⟩, ?_, extract_entities_value_ne text data⟩
  · unfold _normalize; rw [if_pos (Or.inl rfl)]
  · unfold _normalize; rw [if_pos (Or.inr (Or.inl rfl))]
  · unfold _normalize; rw [if_pos (Or.inr (Or.inr rfl))]
  · unfold _normalize
    rw [if_neg (by rintro (h | h | h) <;> simp at h), if_pos rfl]
  · unfold _normalize
    rw [if_neg (by rintro (h | h | h) <;> simp at h),
      if_neg (by intro h; simp at h), if_pos rfl]
  · intro t h1 h2 h3 h4 h5
    unfold _normalize
    rw [if_neg (by rintro (h | h | h) <;> contradiction), if_neg h4, if_neg h5]

/-- C5 counterexample to the claim as stated: an `sd_dt` value is stripped of
surrounding whitespace, not passed through unchanged. -/
theorem sd_dt_not_unchanged :
    _normalize "sd_dt" " 2024-01-02 12:30 " = "2024-01-02 12:30" ∧
    _normalize "sd_dt" " 2024-01-02 12:30 " ≠ " 2024-01-02 12:30 " := by decide

/-- C5 witness: the default branch and the nonempty-value invariant at
concrete inputs. -/
theorem normalize_per_type_witness :
    _normalize "other" " x " = pyStrip " x " ∧
    (∀ e ∈ extract_entities "АЗС 5" stdEntityData, e.entity_value ≠ "") :=
  ⟨(normalize_per_type " x " "АЗС 5" stdEntityData).2.1 "other" (by decide) (by decide)
      (by decide) (by decide) (by decide),
   (normalize_per_type " x " "АЗС 5" stdEntityData).2.2⟩

/-! ### Ingestion and enrichment (`app/storage.py`) -/

/-- A `messages` row, restricted to the fields `ingest_raw_and_classify`
reads from the inbound mapping `m`; the remaining raw columns do not
influence any claim. -/
structure Msg where
  ts_utc : Option String
  chat_id : Option Int
  tg_message_id : Option Int
  text : Option String
deriving DecidableEq

/-- Modelled from the spec: the `message_classification` schema (§6) — its DDL
is not under `src/`.  One row per message id (unique), holding taxonomy code,
rule id, confidence, ruleset version, unclassified flag and timestamps;
columns not named in the insert start out empty with the unclassified flag
set. -/
structure ClassRow where
  message_id : Nat
  chat_id : Option Int
  tg_message_id : Option Int
  problem_domain : Option String
  problem_symptom : Option String
  rule_id : Option String
  confidence : Option Rat
  ruleset_version : Option String
  is_unclassified : Bool
  classified_at_utc : Option String
  updated_at_utc : Option String
deriving DecidableEq

/-- A `message_entities` row (DDL at `storage.py` lines 24-39, with
`UNIQUE(message_id, entity_type, entity_value)`). -/
structure EntityRow where
  message_id : Nat
  entity_type : String
  entity_value : String
  entity_raw : Option String
  confidence : Rat
  extractor : String
  created_at_utc : Option String
deriving DecidableEq

/-- A `terminal_directory` row (populated by the external CSV importer;
`""` stands for SQL NULL / empty in the `ip` and `tid` columns). -/
structure DirRow where
  azs : String
  arm : String
  plnum : String
  ip : String
  tid : String
deriving DecidableEq

/-- The persisted state: the four tables, rows in insertion order, plus the
`messages` AUTOINCREMENT counter. -/
structure DB where
  next_id : Nat
  messages : List (Nat × Msg)
  classifications : List ClassRow
  entities : List EntityRow
  directory : List DirRow
deriving DecidableEq

/-- The `INSERT INTO messages ...` of `ingest_raw_and_classify`
(`storage.py` lines 178-227), returning `cur.lastrowid`. -/
def insertMessage (db : DB) (m : Msg) : DB × Nat :=
  ({ db with next_id := db.next_id + 1, messages := db.messages ++ [(db.next_id, m)] },
   db.next_id)

/-- `INSERT INTO message_classification ... ON CONFLICT(message_id) DO
NOTHING` (lines 230-237). -/
def insertClassIfAbsent (db : DB) (mid : Nat) (chat tg : Option Int) : DB :=
  if db.classifications.any (fun c => decide (c.message_id = mid)) then db
  else { db with classifications := db.classifications ++
    [{ message_id := mid, chat_id := chat, tg_message_id := tg,
       problem_domain := none, problem_symptom := none, rule_id := none,
       confidence := none, ruleset_version := none, is_unclassified := true,
       classified_at_utc := none, updated_at_utc := none }] }

/-- The classification `UPDATE ... WHERE message_id = ?` (lines 240-264). -/
def updateClassification (db : DB) (mid : Nat) (mr : MatchResult)
    (rv : String) (ts : Option String) : DB :=
  { db with classifications := db.classifications.map (fun c =>
      if c.message_id = mid then
        { c with problem_domain := some "PROBLEM",
                 problem_symptom := some mr.code,
                 rule_id := some mr.rule_id,
                 confidence := some mr.weight,
                 ruleset_version := some rv,
                 is_unclassified := false,
                 classified_at_utc := ts,
                 updated_at_utc := ts }
      else c) }

/-- `INSERT OR IGNORE INTO message_entities ...` (lines 271-287, 322-341): a
no-op when a row with the same `(message_id, entity_type, entity_value)` key
exists. -/
def insertEntityIgnore (db : DB) (row : EntityRow) : DB :=
  if db.entities.any (fun e => decide (e.message_id = row.message_id ∧
      e.entity_type = row.entity_type ∧ e.entity_value = row.entity_value)) then db
  else { db with entities := db.entities ++ [row] }

/-- `lookup_terminal_directory` (`storage.py` lines 156-164): every directory
row whose `(azs, plnum)` equals the given pair, in table order. -/
def lookup_terminal_directory (db : DB) (azs plnum : String) : List DirRow :=
  db.directory.filter (fun r => decide (r.azs = azs ∧ r.plnum = plnum))

/-- The `terminal_directory` section of `config/enrichment.yaml`, with the
defaults `storage.py` applies via `.get` (lines 291-299). -/
structure EnrichCfg where
  enabled : Bool
  require_unique_match : Bool
  write_tid : Bool
  write_ip : Bool
  tid_conf : Rat
  ip_conf : Rat
deriving DecidableEq

/-- The enrichment `SELECT entity_type, entity_value FROM message_entities
WHERE message_id = ?` (lines 301-308), in insertion order. -/
def entitiesFor (db : DB) (mid : Nat) : List (String × String) :=
  (db.entities.filter (fun e => decide (e.message_id = mid))).map
    (fun e => (e.entity_type, e.entity_value))

/-- `next((v for (t, v) in ent if t == ty), None)` (lines 310-311). -/
def firstVal (ent : List (String × String)) (ty : String) : Option String :=
  (ent.find? (fun tv => decide (tv.1 = ty))).map (fun tv => tv.2)

/-- Python truthiness of an optional string (`if azs_val and wp_val`). -/
def truthy (o : Option String) : Bool :=
  decide (o.getD "" ≠ "")

/-- The enrichment step (`storage.py` lines 289-341): read the message's
entities back, take the first `azs` and the first `workplace` value, look the
pair up once, and when the policy admits the result insert synthetic `tid` /
`ip` entities from the first returned row, each gated by its write flag and
the truthiness of the directory value, with the configured per-type
confidence. -/
def enrich (cfg : EnrichCfg) (db : DB) (mid : Nat) (ts : Option String) : DB :=
  if cfg.enabled then
    let ent := entitiesFor db mid
    let azs_val := firstVal ent "azs"
    let wp_val := firstVal ent "workplace"
    if truthy azs_val ∧ truthy wp_val then
      let rows := lookup_terminal_directory db (azs_val.getD "") (wp_val.getD "")
      if ¬cfg.require_unique_match ∨ rows.length = 1 then
        match rows with
        | [] => db
        | r0 :: _ =>
          let db1 := if cfg.write_tid ∧ r0.tid ≠ "" then
              insertEntityIgnore db ⟨mid, "tid", r0.tid, none, cfg.tid_conf, "directory:v1", ts⟩
            else db
          if cfg.write_ip ∧ r0.ip ≠ "" then
            insertEntityIgnore db1 ⟨mid, "ip", r0.ip, none, cfg.ip_conf, "directory:v1", ts⟩
          else db1
      else db
    else db
  else db

/-- The `message_entities` row written for an extracted entity at step 3
(lines 271-287). -/
def entityRow (mid : Nat) (ts : Option String) (e : EntityMatch) : EntityRow :=
  ⟨mid, e.entity_type, e.entity_value, some e.entity_raw, e.confidence, e.extractor, ts⟩

/-- The DML statements of `ingest_raw_and_classify` before the enrichment
step (lines 178-287), in program order: message insert, classification
create-if-absent, conditional classification update, and one
insert-or-ignore per extracted entity of the stripped text.  `db0` only
fixes the id the message insert will return. -/
def bodyOps (edata : EntityData) (m : Msg) (mtch : Option MatchResult)
    (rv : String) (db0 : DB) : List (DB → DB) :=
  let mid := db0.next_id
  [fun db => (insertMessage db m).1,
   fun db => insertClassIfAbsent db mid m.chat_id m.tg_message_id] ++
  (match mtch with
   | some mr => [fun db => updateClassification db mid mr rv m.ts_utc]
   | none => []) ++
  (let text := pyStrip (m.text.getD "")
   if text = "" then []
   else (extract_entities text edata).map
     (fun e => fun db => insertEntityIgnore db (entityRow mid m.ts_utc e)))

/-- All DML statements of `ingest_raw_and_classify` (lines 178-341): the body
followed by the enrichment step; the single `con.commit()` at line 343 comes
only after all of them. -/
def ingestOps (edata : EntityData) (cfg : EnrichCfg) (m : Msg)
    (mtch : Option MatchResult) (rv : String) (db0 : DB) : List (DB → DB) :=
  bodyOps edata m mtch rv db0 ++ [fun db => enrich cfg db db0.next_id m.ts_utc]

/-- The state reached just before the enrichment step. -/
def ingestPre (edata : EntityData) (m : Msg) (mtch : Option MatchResult)
    (rv : String) (db : DB) : DB :=
  (bodyOps edata m mtch rv db).foldl (fun d f => f d) db

/-- `ingest_raw_and_classify` (`storage.py` lines 167-344), successful path:
apply every statement and return the new state and message id. -/
def ingest_raw_and_classify (edata : EntityData) (cfg : EnrichCfg) (db : DB)
    (m : Msg) (mtch : Option MatchResult) (rv : String) : DB × Nat :=
  ((ingestOps edata cfg m mtch rv db).foldl (fun d f => f d) db, db.next_id)

/-- An open SQLite connection: the durable (committed) state and the pending
state the DML statements act on.  The body of `ingest_raw_and_classify`
contains no `con.commit()` before line 343, so its statements only ever touch
the pending state. -/
structure Conn where
  committed : DB
  pending : DB

/-- Execute statements against the pending state, raising a persistence
failure after `failAfter` statements when one is injected (`none` = no
failure); the error carries the connection so the context manager can roll
back. -/
def execBody (ops : List (DB → DB)) (failAfter : Option Nat) (c : Conn) :
    Except (String × Conn) Conn :=
  match ops, failAfter with
  | [], _ => .ok c
  | _ :: _, some 0 => .error ("PersistenceError", c)
  | f :: rest, fa =>
    execBody rest (fa.map (fun k => k - 1)) { c with pending := f c.pending }

/-- The `with sqlite3.connect(db_path) as con:` context manager around
`ingest_raw_and_classify`: commit on success, roll back and re-raise on an
exception.  The second component is the durable state observable after the
call. -/
def ingest_txn (edata : EntityData) (cfg : EnrichCfg) (db : DB) (m : Msg)
    (mtch : Option MatchResult) (rv : String) (failAfter : Option Nat) :
    Except String Nat × DB :=
  match execBody (ingestOps edata cfg m mtch rv db) failAfter ⟨db, db⟩ with
  | .ok c => (.ok db.next_id, c.pending)
  | .error (e, c) => (.error e, c.committed)

lemma execBody_none (ops : List (DB → DB)) (c : Conn) :
    execBody ops none c = .ok ⟨c.committed, ops.foldl (fun d f => f d) c.pending⟩ := by
  induction ops generalizing c with
  | nil => rfl
  | cons f rest ih =>
    have h : execBody (f :: rest) none c =
        execBody rest none { c with pending := f c.pending } := rfl
    rw [h, ih]
    rfl

lemma execBody_fail (ops : List (DB → DB)) (k : Nat) (c : Conn) (h : k < ops.length) :
    ∃ p, execBody ops (some k) c = .error ("PersistenceError", ⟨c.committed, p⟩) := by
  induction ops generalizing k c with
  | nil => simp at h
  | cons f rest ih =>
    cases k with
    | zero => exact ⟨c.pending, rfl⟩
    | succ n =>
      have h' : n < rest.length := by simpa using h
      have step : execBody (f :: rest) (some (n + 1)) c =
          execBody rest (some n) { c with pending := f c.pending } := rfl
      rcases ih n { c with pending := f c.pending } h' with ⟨p, hp⟩
      exact ⟨p, by rw [step, hp]⟩

/-- C9: a persistence failure injected after any number of statements strictly
inside the ingestion transaction leaves the observable state exactly as
before the call (no message, classification or entity rows persist) and the
error propagates; without a failure the transaction commits to the state the
pure `ingest_raw_and_classify` computes. -/
theorem ingest_all_or_nothing (edata : EntityData) (cfg : EnrichCfg) (db : DB)
    (m : Msg) (mtch : Option MatchResult) (rv : String) (k : Nat)
    (h : k < (ingestOps edata cfg m mtch rv db).length) :
    (ingest_txn edata cfg db m mtch rv (some k)).1 = .error "PersistenceError" ∧
    (ingest_txn edata cfg db m mtch rv (some k)).2 = db ∧
    ingest_txn edata cfg db m mtch rv none =
      (.ok db.next_id, (ingest_raw_and_classify edata cfg db m mtch rv).1) := by
  rcases execBody_fail (ingestOps edata cfg m mtch rv db) k ⟨db, db⟩ h with ⟨p, hp⟩
  have hn := execBody_none (ingestOps edata cfg m mtch rv db) ⟨db, db⟩
  unfold ingest_txn
  rw [hp, hn]
  exact ⟨rfl, rfl, rfl⟩

/-- C9 witness: a failure injected right after the message insert (one
statement in) rolls everything back on a concrete state. -/
theorem ingest_all_or_nothing_witness :
    (ingest_txn stdEntityData ⟨true, true, true, true, 19/20, 4/5⟩
        ⟨1, [], [], [], []⟩ ⟨some "t0", some 1, some 10, none⟩ none "v1" (some 1)).1 =
      .error "PersistenceError" ∧
    (ingest_txn stdEntityData ⟨true, true, true, true, 19/20, 4/5⟩
        ⟨1, [], [], [], []⟩ ⟨some "t0", some 1, some 10, none⟩ none "v1" (some 1)).2 =
      ⟨1, [], [], [], []⟩ ∧
    ingest_txn stdEntityData ⟨true, true, true, true, 19/20, 4/5⟩
        ⟨1, [], [], [], []⟩ ⟨some "t0", some 1, some 10, none⟩ none "v1" none =
      (.ok 1, (ingest_raw_and_classify stdEntityData ⟨true, true, true, true, 19/20, 4/5⟩
        ⟨1, [], [], [], []⟩ ⟨some "t0", some 1, some 10, none⟩ none "v1").1) :=
  ingest_all_or_nothing stdEntityData ⟨true, true, true, true, 19/20, 4/5⟩
    ⟨1, [], [], [], []⟩ ⟨some "t0", some 1, some 10, none⟩ none "v1" 1 (by decide)

/-- The message ids carried by the classification rows. -/
def classIds (db : DB) : List Nat := db.classifications.map (fun c => c.message_id)

/-- The `(message_id, entity_type, entity_value)` keys of the entity rows. -/
def entityKeys (db : DB) : List (Nat × String × String) :=
  db.entities.map (fun e => (e.message_id, e.entity_type, e.entity_value))

lemma insertClassIfAbsent_mem {db : DB} {mid : Nat} (chat tg : Option Int)
    (h : mid ∈ classIds db) : insertClassIfAbsent db mid chat tg = db := by
  unfold insertClassIfAbsent
  rw [if_pos]
  rw [List.any_eq_true]
  rcases List.mem_map.mp h with ⟨c, hc, hcm⟩
  exact ⟨c, hc, by simpa using hcm⟩

lemma insertEntityIgnore_mem {db : DB} {row : EntityRow}
    (h : (row.message_id, row.entity_type, row.entity_value) ∈ entityKeys db) :
    insertEntityIgnore db row = db := by
  unfold insertEntityIgnore
  rw [if_pos]
  rw [List.any_eq_true]
  rcases List.mem_map.mp h with ⟨e, he, hk⟩
  refine ⟨e, he, ?_⟩
  rw [decide_eq_true_eq]
  have h1 := congrArg Prod.fst hk
  have h2 := congrArg (fun x => x.2.1) hk
  have h3 := congrArg (fun x => x.2.2) hk
  exact ⟨h1, h2, h3⟩

lemma classIds_insertEntityIgnore (db : DB) (row : EntityRow) :
    classIds (insertEntityIgnore db row) = classIds db := by
  unfold insertEntityIgnore
  split <;> rfl

lemma classIds_enrich (cfg : EnrichCfg) (db : DB) (mid : Nat) (ts : Option String) :
    classIds (enrich cfg db mid ts) = classIds db := by
  simp only [enrich]
  split
  · split
    · split
      · split
        · rfl
        · split <;> split <;> simp [classIds_insertEntityIgnore]
      · rfl
    · rfl
  · rfl

lemma entityKeys_insertClassIfAbsent (db : DB) (mid : Nat) (chat tg : Option Int) :
    entityKeys (insertClassIfAbsent db mid chat tg) = entityKeys db := by
  unfold insertClassIfAbsent
  split <;> rfl

lemma classIds_updateClassification (db : DB) (mid : Nat) (mr : MatchResult)
    (rv : String) (ts : Option String) :
    classIds (updateClassification db mid mr rv ts) = classIds db := by
  unfold updateClassification classIds
  simp only [List.map_map]
  apply List.map_congr_left
  intro c _
  simp only [Function.comp_apply]
  split <;> rfl

lemma nodup_classIds_insertClassIfAbsent (db : DB) (mid : Nat) (chat tg : Option Int)
    (h : (classIds db).Nodup) :
    (classIds (insertClassIfAbsent db mid chat tg)).Nodup := by
  unfold insertClassIfAbsent
  split
  · exact h
  · rename_i hany
    simp only [List.any_eq_true, decide_eq_true_eq, not_exists, not_and] at hany
    simp only [classIds, List.map_append, List.map_cons, List.map_nil]
    rw [List.nodup_append]
    refine ⟨h, List.nodup_singleton _, ?_⟩
    intro x hx hx'
    rcases List.mem_map.mp hx with ⟨c, hc, rfl⟩
    rcases List.mem_singleton.mp hx' with rfl
    exact hany c hc rfl

lemma nodup_entityKeys_insertEntityIgnore (db : DB) (row : EntityRow)
    (h : (entityKeys db).Nodup) :
    (entityKeys (insertEntityIgnore db row)).Nodup := by
  unfold insertEntityIgnore
  split
  · exact h
  · rename_i hany
    simp only [entityKeys, List.map_append, List.map_cons, List.map_nil]
    rw [List.nodup_append]
    refine ⟨h, List.nodup_singleton _, ?_⟩
    intro x hx hx'
    rcases List.mem_map.mp hx with ⟨e, he, rfl⟩
    have heq := List.mem_singleton.mp hx'
    apply hany
    rw [List.any_eq_true]
    refine ⟨e, he, ?_⟩
    rw [decide_eq_true_eq]
    exact ⟨congrArg Prod.fst heq, congrArg (fun y => y.2.1) heq,
      congrArg (fun y => y.2.2) heq⟩

lemma nodup_entityKeys_enrich (cfg : EnrichCfg) (db : DB) (mid : Nat)
    (ts : Option String) (h : (entityKeys db).Nodup) :
    (entityKeys (enrich cfg db mid ts)).Nodup := by
  simp only [enrich]
  split
  · split
    · split
      · split
        · exact h
        · split
          · split
            · apply nodup_entityKeys_insertEntityIgnore
              exact nodup_entityKeys_insertEntityIgnore _ _ h
            · exact nodup_entityKeys_insertEntityIgnore _ _ h
          · split
            · exact nodup_entityKeys_insertEntityIgnore _ _ h
            · exact h
      · exact h
    · exact h
  · exact h

/-- An operation that changes neither the distinctness of classification ids
nor that of entity keys. -/
def preservesKeys (f : DB → DB) : Prop :=
  ∀ d : DB, ((classIds d).Nodup → (classIds (f d)).Nodup) ∧
    ((entityKeys d).Nodup → (entityKeys (f d)).Nodup)

lemma ingestOps_preserve (edata : EntityData) (cfg : EnrichCfg) (m : Msg)
    (mtch : Option MatchResult) (rv : String) (db0 : DB) :
    ∀ f ∈ ingestOps edata cfg m mtch rv db0, preservesKeys f := by
  intro f hf
  simp only [ingestOps, bodyOps, List.mem_append, List.mem_cons, List.mem_singleton,
    List.not_mem_nil, or_false] at hf
  rcases hf with (((rfl | rfl) | hf) | hf) | rfl
  · intro d; exact ⟨fun h => h, fun h => h⟩
  · intro d
    exact ⟨nodup_classIds_insertClassIfAbsent d _ _ _,
      fun h => by rw [entityKeys_insertClassIfAbsent]; exact h⟩
  · cases mtch with
    | none => simp at hf
    | some mr =>
      rcases List.mem_singleton.mp hf with rfl
      intro d
      exact ⟨fun h => by rw [classIds_updateClassification]; exact h, fun h => h⟩
  · split at hf
    · simp at hf
    · rcases List.mem_map.mp hf with ⟨e, _, rfl⟩
      intro d
      exact ⟨fun h => by rw [classIds_insertEntityIgnore]; exact h,
        nodup_entityKeys_insertEntityIgnore d _⟩
  · intro d
    exact ⟨fun h => by rw [classIds_enrich]; exact h,
      nodup_entityKeys_enrich cfg d _ _⟩

lemma foldl_preservesKeys (l : List (DB → DB)) (h : ∀ f ∈ l, preservesKeys f) :
    ∀ d : DB, (classIds d).Nodup → (entityKeys d).Nodup →
      (classIds (l.foldl (fun a f => f a) d)).Nodup ∧
      (entityKeys (l.foldl (fun a f => f a) d)).Nodup := by
  induction l with
  | nil => exact fun d h1 h2 => ⟨h1, h2⟩
  | cons f rest ih =>
    intro d h1 h2
    have hf := h f (List.mem_cons_self f rest)
    exact ih (fun g hg => h g (List.mem_cons_of_mem f hg)) (f d)
      ((hf d).1 h1) ((hf d).2 h2)

/-- C8: the classification-row insert is a no-op for an already classified
message id and the entity insert is a no-op on an existing
`(message_id, entity_type, entity_value)` key; consequently the whole
ingestion step preserves at-most-one classification row per message id and
at-most-one entity row per key. -/
theorem ingest_unique_keys (edata : EntityData) (cfg : EnrichCfg) (db : DB)
    (m : Msg) (mtch : Option MatchResult) (rv : String) (mid : Nat)
    (chat tg : Option Int) (row : EntityRow) :
    (mid ∈ classIds db → insertClassIfAbsent db mid chat tg = db) ∧
    ((row.message_id, row.entity_type, row.entity_value) ∈ entityKeys db →
       insertEntityIgnore db row = db) ∧
    ((classIds db).Nodup → (entityKeys db).Nodup →
       (classIds (ingest_raw_and_classify edata cfg db m mtch rv).1).Nodup ∧
       (entityKeys (ingest_raw_and_classify edata cfg db m mtch rv).1).Nodup) := by
  refine ⟨fun h => insertClassIfAbsent_mem chat tg h,
    fun h => insertEntityIgnore_mem h, fun h1 h2 => ?_⟩
  exact foldl_preservesKeys _ (ingestOps_preserve edata cfg m mtch rv db) db h1 h2

/-- C8 witness: the no-ops on an existing id / key and the preserved
invariants at a concrete state. -/
theorem ingest_unique_keys_witness :
    (insertClassIfAbsent
        ⟨2, [], [⟨1, none, none, none, none, none, none, none, true, none, none⟩], [], []⟩
        1 none none =
      ⟨2, [], [⟨1, none, none, none, none, none, none, none, true, none, none⟩], [], []⟩) ∧
    (insertEntityIgnore
        ⟨2, [], [], [⟨1, "azs", "7", none, 1/2, "x", none⟩], []⟩
        ⟨1, "azs", "7", some "АЗС 7", 3/4, "y", some "t"⟩ =
      ⟨2, [], [], [⟨1, "azs", "7", none, 1/2, "x", none⟩], []⟩) ∧
    ((classIds (ingest_raw_and_classify stdEntityData ⟨true, true, true, true, 19/20, 4/5⟩
        ⟨2, [], [⟨1, none, none, none, none, none, none, none, true, none, none⟩], [], []⟩
        ⟨some "t0", some 1, some 10, some "АЗС 7, РМ 1"⟩ none "v1").1).Nodup ∧
     (entityKeys (ingest_raw_and_classify stdEntityData ⟨true, true, true, true, 19/20, 4/5⟩
        ⟨2, [], [⟨1, none, none, none, none, none, none, none, true, none, none⟩], [], []⟩
        ⟨some "t0", some 1, some 10, some "АЗС 7, РМ 1"⟩ none "v1").1).Nodup) :=
  ⟨(ingest_unique_keys stdEntityData ⟨true, true, true, true, 19/20, 4/5⟩
      ⟨2, [], [⟨1, none, none, none, none, none, none, none, true, none, none⟩], [], []⟩
      ⟨some "t0", some 1, some 10, some "АЗС 7, РМ 1"⟩ none "v1" 1 none none
      ⟨1, "azs", "7", some "АЗС 7", 3/4, "y", some "t"⟩).1 (by decide),
   (ingest_unique_keys stdEntityData ⟨true, true, true, true, 19/20, 4/5⟩
      ⟨2, [], [], [⟨1, "azs", "7", none, 1/2, "x", none⟩], []⟩
      ⟨some "t0", some 1, some 10, some "АЗС 7, РМ 1"⟩ none "v1" 1 none none
      ⟨1, "azs", "7", some "АЗС 7", 3/4, "y", some "t"⟩).2.1 (by decide),
   (ingest_unique_keys stdEntityData ⟨true, true, true, true, 19/20, 4/5⟩
      ⟨2, [], [⟨1, none, none, none, none, none, none, none, true, none, none⟩], [], []⟩
      ⟨some "t0", some 1, some 10, some "АЗС 7, РМ 1"⟩ none "v1" 1 none none
      ⟨1, "azs", "7", some "АЗС 7", 3/4, "y", some "t"⟩).2.2 (by decide) (by decide)⟩

lemma mem_entityKeys_insert_self (db : DB) (row : EntityRow) :
    (row.message_id, row.entity_type, row.entity_value) ∈
      entityKeys (insertEntityIgnore db row) := by
  unfold insertEntityIgnore
  split
  · rename_i hany
    rw [List.any_eq_true] at hany
    obtain ⟨e, he, hp⟩ := hany
    rw [decide_eq_true_eq] at hp
    obtain ⟨h1, h2, h3⟩ := hp
    exact List.mem_map.mpr ⟨e, he, by rw [h1, h2, h3]⟩
  · simp [entityKeys]

lemma entityKeys_mono (db : DB) (row : EntityRow) (k : Nat × String × String)
    (h : k ∈ entityKeys db) : k ∈ entityKeys (insertEntityIgnore db row) := by
  unfold insertEntityIgnore
  split
  · exact h
  · simp only [entityKeys, List.map_append]
    exact List.mem_append_left _ h

lemma enrich_inserts (cfg : EnrichCfg) (d : DB) (mid : Nat) (ts : Option String)
    (a w : String) (r0 : DirRow) (rest : List DirRow)
    (hen : cfg.enabled = true)
    (ha : firstVal (entitiesFor d mid) "azs" = some a) (ha' : a ≠ "")
    (hw : firstVal (entitiesFor d mid) "workplace" = some w) (hw' : w ≠ "")
    (hrows : lookup_terminal_directory d a w = r0 :: rest)
    (hq : cfg.require_unique_match = false ∨ rest = []) :
    enrich cfg d mid ts =
      (if cfg.write_ip = true ∧ r0.ip ≠ "" then
        insertEntityIgnore
          (if cfg.write_tid = true ∧ r0.tid ≠ "" then
            insertEntityIgnore d ⟨mid, "tid", r0.tid, none, cfg.tid_conf, "directory:v1", ts⟩
          else d)
          ⟨mid, "ip", r0.ip, none, cfg.ip_conf, "directory:v1", ts⟩
      else if cfg.write_tid = true ∧ r0.tid ≠ "" then
        insertEntityIgnore d ⟨mid, "tid", r0.tid, none, cfg.tid_conf, "directory:v1", ts⟩
      else d) := by
  have hta : truthy (some a) = true := by simp [truthy, ha']
  have htw : truthy (some w) = true := by simp [truthy, hw']
  have hpol : (¬cfg.require_unique_match = true ∨ (r0 :: rest).length = 1) := by
    rcases hq with hq | rfl
    · exact Or.inl (by rw [hq]; exact Bool.false_ne_true)
    · exact Or.inr rfl
  simp only [enrich, hen, ha, hw, hta, htw, Option.getD_some, hrows, if_pos hpol,
    and_self, if_true]

lemma enrich_inserts_mem (cfg : EnrichCfg) (d : DB) (mid : Nat) (ts : Option String)
    (a w : String) (r0 : DirRow) (rest : List DirRow)
    (hen : cfg.enabled = true)
    (ha : firstVal (entitiesFor d mid) "azs" = some a) (ha' : a ≠ "")
    (hw : firstVal (entitiesFor d mid) "workplace" = some w) (hw' : w ≠ "")
    (hrows : lookup_terminal_directory d a w = r0 :: rest)
    (hq : cfg.require_unique_match = false ∨ rest = []) :
    (cfg.write_tid = true → r0.tid ≠ "" →
       (mid, "tid", r0.tid) ∈ entityKeys (enrich cfg d mid ts)) ∧
    (cfg.write_ip = true → r0.ip ≠ "" →
       (mid, "ip", r0.ip) ∈ entityKeys (enrich cfg d mid ts)) ∧
    ((entityKeys d).Nodup → (entityKeys (enrich cfg d mid ts)).Nodup) := by
  rw [enrich_inserts cfg d mid ts a w r0 rest hen ha ha' hw hw' hrows hq]
  refine ⟨?_, ?_, ?_⟩
  · intro h1 h2
    by_cases hip : cfg.write_ip = true ∧ r0.ip ≠ ""
    · rw [if_pos hip, if_pos ⟨h1, h2⟩]
      exact entityKeys_mono _ _ _ (mem_entityKeys_insert_self d _)
    · rw [if_neg hip, if_pos ⟨h1, h2⟩]
      exact mem_entityKeys_insert_self d _
  · intro h1 h2
    rw [if_pos ⟨h1, h2⟩]
    exact mem_entityKeys_insert_self _ _
  · intro h
    split
    · apply nodup_entityKeys_insertEntityIgnore
      split
      · exact nodup_entityKeys_insertEntityIgnore _ _ h
      · exact h
    · split
      · exact nodup_entityKeys_insertEntityIgnore _ _ h
      · exact h

lemma ingest_eq_enrich (edata : EntityData) (cfg : EnrichCfg) (db : DB) (m : Msg)
    (mtch : Option MatchResult) (rv : String) :
    (ingest_raw_and_classify edata cfg db m mtch rv).1 =
      enrich cfg (ingestPre edata m mtch rv db) db.next_id m.ts_utc := by
  unfold ingest_raw_and_classify ingestOps ingestPre
  rw [List.foldl_append]
  rfl

/-- C6 (amended): when the state reached after entity insertion holds an
`azs` value and a `workplace` value, the directory lookup is done once, with
the FIRST azs and the FIRST workplace values in stored order (not for each
distinct workplace value), and on a policy-admitted result the synthetic
`tid` / `ip` entities of the first row are appended, each gated by its write
flag, with the per-type configured confidence, through the same
insert-or-ignore keyed on `(message_id, entity_type, entity_value)`. -/
theorem ingest_enrichment_first_pair (edata : EntityData) (cfg : EnrichCfg)
    (db : DB) (m : Msg) (mtch : Option MatchResult) (rv : String) (a w : String)
    (r0 : DirRow) (rest : List DirRow)
    (hen : cfg.enabled = true)
    (ha : firstVal (entitiesFor (ingestPre edata m mtch rv db) db.next_id) "azs" = some a)
    (ha' : a ≠ "")
    (hw : firstVal (entitiesFor (ingestPre edata m mtch rv db) db.next_id) "workplace" = some w)
    (hw' : w ≠ "")
    (hrows : lookup_terminal_directory (ingestPre edata m mtch rv db) a w = r0 :: rest)
    (hq : cfg.require_unique_match = false ∨ rest = []) :
    (cfg.write_tid = true → r0.tid ≠ "" →
       (db.next_id, "tid", r0.tid) ∈
         entityKeys (ingest_raw_and_classify edata cfg db m mtch rv).1) ∧
    (cfg.write_ip = true → r0.ip ≠ "" →
       (db.next_id, "ip", r0.ip) ∈
         entityKeys (ingest_raw_and_classify edata cfg db m mtch rv).1) ∧
    ((entityKeys (ingestPre edata m mtch rv db)).Nodup →
       (entityKeys (ingest_raw_and_classify edata cfg db m mtch rv).1).Nodup) := by
  rw [ingest_eq_enrich edata cfg db m mtch rv]
  exact enrich_inserts_mem cfg _ db.next_id m.ts_utc a w r0 rest hen ha ha' hw hw' hrows hq

/-- Enrichment configuration with everything switched on and the
`require_unique_match` policy enabled. -/
def c6cfg : EnrichCfg := ⟨true, true, true, true, 19/20, 4/5⟩

/-- A state whose directory can resolve site 7 / workplace 2 only. -/
def c6db : DB := ⟨1, [], [], [], [⟨"7", "A", "2", "10.0.0.2", "87654321"⟩]⟩

/-- A message naming site 7 and the two workplaces 1 and 2. -/
def c6msg : Msg := ⟨some "2024-01-01T00:00:00Z", some 1, some 10, some "АЗС 7, РМ 1, РМ 2"⟩

/-- C6 counterexample to the claim as stated: the message yields the two
distinct workplace values 1 and 2, the pair (7, 2) has a unique qualifying
directory row with a tid and all write flags are on, yet ingestion writes no
`tid` entity at all — the lookup is not performed for each distinct
workplace value, only for the first one. -/
theorem enrichment_not_per_workplace :
    ("workplace", "1") ∈
      entitiesFor (ingest_raw_and_classify stdEntityData c6cfg c6db c6msg none "v1").1 1 ∧
    ("workplace", "2") ∈
      entitiesFor (ingest_raw_and_classify stdEntityData c6cfg c6db c6msg none "v1").1 1 ∧
    lookup_terminal_directory c6db "7" "2" = [⟨"7", "A", "2", "10.0.0.2", "87654321"⟩] ∧
    c6cfg.write_tid = true ∧
    (ingest_raw_and_classify stdEntityData c6cfg c6db c6msg none "v1").1.entities.all
      (fun e => decide (e.entity_type ≠ "tid" ∧ e.entity_type ≠ "ip")) = true := by
  decide

/-- A state whose directory resolves site 7 / workplace 1, the first
workplace the message names. -/
def c6wdb : DB := ⟨1, [], [], [], [⟨"7", "A", "1", "10.0.0.1", "33333333"⟩]⟩

/-- C6 witness: for the first workplace value the lookup does qualify and the
synthetic tid and ip entities are written. -/
theorem ingest_enrichment_first_pair_witness :
    (1, "tid", "33333333") ∈
      entityKeys (ingest_raw_and_classify stdEntityData c6cfg c6wdb c6msg none "v1").1 ∧
    (1, "ip", "10.0.0.1") ∈
      entityKeys (ingest_raw_and_classify stdEntityData c6cfg c6wdb c6msg none "v1").1 :=
  ⟨(ingest_enrichment_first_pair stdEntityData c6cfg c6wdb c6msg none "v1" "7" "1"
      ⟨"7", "A", "1", "10.0.0.1", "33333333"⟩ [] rfl (by decide) (by decide) (by decide)
      (by decide) (by decide) (Or.inr rfl)).1 rfl (by decide),
   (ingest_enrichment_first_pair stdEntityData c6cfg c6wdb c6msg none "v1" "7" "1"
      ⟨"7", "A", "1", "10.0.0.1", "33333333"⟩ [] rfl (by decide) (by decide) (by decide)
      (by decide) (by decide) (Or.inr rfl)).2.1 rfl (by decide)⟩

/-- C7: with the require-unique policy on, a lookup returning any number of
rows other than one (zero, two, or more) silently writes no synthetic `tid` /
`ip` entities — the state is unchanged, no error; with the policy off and
several rows returned, the first returned row is the fallback used for the
synthetic entities. -/
theorem lookup_policy (cfg : EnrichCfg) (d : DB) (mid : Nat) (ts : Option String)
    (a w : String)
    (hen : cfg.enabled = true)
    (ha : firstVal (entitiesFor d mid) "azs" = some a) (ha' : a ≠ "")
    (hw : firstVal (entitiesFor d mid) "workplace" = some w) (hw' : w ≠ "") :
    (cfg.require_unique_match = true →
       (lookup_terminal_directory d a w).length ≠ 1 →
       enrich cfg d mid ts = d) ∧
    (∀ r0 r1 rest2, cfg.require_unique_match = false →
       lookup_terminal_directory d a w = r0 :: r1 :: rest2 →
       (cfg.write_tid = true → r0.tid ≠ "" →
          (mid, "tid", r0.tid) ∈ entityKeys (enrich cfg d mid ts)) ∧
       (cfg.write_ip = true → r0.ip ≠ "" →
          (mid, "ip", r0.ip) ∈ entityKeys (enrich cfg d mid ts))) := by
  have hta : truthy (some a) = true := by simp [truthy, ha']
  have htw : truthy (some w) = true := by simp [truthy, hw']
  constructor
  · intro hru hlen
    simp only [enrich, hen, ha, hw, hta, htw, Option.getD_some, and_self, if_true]
    rw [if_neg]
    rintro (hc | hc)
    · exact hc (by rw [hru])
    · exact hlen hc
  · intro r0 r1 rest2 hru hrows
    have hm := enrich_inserts_mem cfg d mid ts a w r0 (r1 :: rest2) hen ha ha' hw hw'
      hrows (Or.inl hru)
    exact ⟨hm.1, hm.2.1⟩

/-- A state holding an azs and a workplace entity for message 1 and an
ambiguous directory: two rows for the pair (7, 2). -/
def c7db : DB :=
  ⟨2, [], [],
   [⟨1, "azs", "7", none, 1/2, "x", none⟩, ⟨1, "workplace", "2", none, 1/2, "x", none⟩],
   [⟨"7", "A", "2", "10.0.0.2", "11111111"⟩, ⟨"7", "B", "2", "10.0.0.3", "22222222"⟩]⟩

/-- C7 witness: with the policy on, the ambiguous pair changes nothing; with
the policy off, the first of the two rows supplies the synthetic entities. -/
theorem lookup_policy_witness :
    enrich c6cfg c7db 1 none = c7db ∧
    (1, "tid", "11111111") ∈ entityKeys (enrich ⟨true, false, true, true, 19/20, 4/5⟩ c7db 1 none) ∧
    (1, "ip", "10.0.0.2") ∈ entityKeys (enrich ⟨true, false, true, true, 19/20, 4/5⟩ c7db 1 none) :=
  ⟨(lookup_policy c6cfg c7db 1 none "7" "2" rfl (by decide) (by decide) (by decide)
      (by decide)).1 rfl (by decide),
   ((lookup_policy ⟨true, false, true, true, 19/20, 4/5⟩ c7db 1 none "7" "2" rfl (by decide)
      (by decide) (by decide) (by decide)).2 ⟨"7", "A", "2", "10.0.0.2", "11111111"⟩
      ⟨"7", "B", "2", "10.0.0.3", "22222222"⟩ [] rfl (by decide)).1 rfl (by decide),
   ((lookup_policy ⟨true, false, true, true, 19/20, 4/5⟩ c7db 1 none "7" "2" rfl (by decide)
      (by decide) (by decide) (by decide)).2 ⟨"7", "A", "2", "10.0.0.2", "11111111"⟩
      ⟨"7", "B", "2", "10.0.0.3", "22222222"⟩ [] rfl (by decide)).2 rfl (by decide)⟩

end PosBot
